import Mathlib

/-!
Verification of the hexagon-indexing pipeline of the `oer-ega` repository.

Embedded code:
* `dags/dataset_ETL_GEBCO_netcdf_TID_to_pgsql.py`
  - `netcdf_to_pgsql` : chunked execution of the raster2pgsql SQL file
    (modelled by `chunkLines` / `netcdf_to_pgsql` / `runBatches`);
  - `assign_gebcoTID_hex` : the SQL block building `gebco_2024_polygons`
    (filter `val BETWEEN 10 AND 17`, SERIAL polygon ids) and `gebco_tid_hex`
    (plain `INSERT ... SELECT` with a `hex_05` PRIMARY KEY, an
    `IF EXISTS h3_oceans` capability probe choosing the masked or unmasked
    insert pair).  Polygon geometries are represented by their
    `h3_polygon_to_cells(polygon, 5)` enumeration, the only use the SQL
    makes of them.
* `dags/dataset_create_hex_heirarchy_from_water_polygons.py`
  - `load_water_polygons` (`gpd.read_file(..., rows=1000)` and the CRS
    branch), `process_geometry` (delegation to `h3.geo_to_cells`, modelled
    as an explicit library parameter returning `none` when the library
    raises), `identify_water_hexes` (per-geometry union into a set; raised
    exceptions are swallowed by `concurrent.futures.wait` and contribute
    nothing), `write_waterhexes_to_file` (header row plus one row per
    hexagon, in the enumeration order of the Python set, which is passed
    in explicitly because Python set iteration order is unspecified).

The whole-statement failure semantics of `pg_hook.run` (a duplicate
primary key aborts the entire SQL block, leaving no output) is modelled by
`insertRows` returning `none`.
-/

/-- A row of `ST_DumpAsPolygons` over the `gebco_2024` raster: raster tile id
`rid`, the polygon (represented by its resolution-5 cell enumeration
`h3_polygon_to_cells(polygon, 5)`), and its TID classification value. -/
structure DumpRow where
  rid : Nat
  cells : List Nat
  val : Int
deriving DecidableEq

/-- A row of the intermediate `gebco_2024_polygons` table:
`polygon_id SERIAL PRIMARY KEY, rid INTEGER, polygon GEOMETRY, val INTEGER`. -/
structure PolyRow where
  polygon_id : Nat
  rid : Nat
  cells : List Nat
  val : Int
deriving DecidableEq

/-- A row of the final `gebco_tid_hex` table:
`hex_05 H3INDEX PRIMARY KEY, val INT, polygon_id INT`. -/
structure HexRow where
  hex_05 : Nat
  val : Int
  polygon_id : Nat
deriving DecidableEq

/-- The `WHERE d.val BETWEEN 10 AND 17` filter of the insert into
`gebco_2024_polygons`. -/
def valBetween (v : Int) : Bool :=
  decide (10 ≤ v ∧ v ≤ 17)

/-- The `val IN (10, 11, 12, 13, 14, 15, 16, 17)` filter of the inserts into
`gebco_tid_hex`. -/
def valIn (v : Int) : Bool :=
  decide (v = 10 ∨ v = 11 ∨ v = 12 ∨ v = 13 ∨ v = 14 ∨ v = 15 ∨ v = 16 ∨ v = 17)

/-- SERIAL numbering of the rows kept by the polygon insert, starting at 1. -/
def numberRows : Nat → List DumpRow → List PolyRow
  | _, [] => []
  | n, r :: rs => { polygon_id := n, rid := r.rid, cells := r.cells, val := r.val } :: numberRows (n + 1) rs

/-- The `gebco_2024_polygons` table after
`INSERT ... SELECT r.rid, d.geom, d.val ... WHERE d.val BETWEEN 10 AND 17`
(the table is truncated first, so it holds exactly these rows). -/
def gebco_2024_polygons (input : List DumpRow) : List PolyRow :=
  numberRows 1 (input.filter fun r => valBetween r.val)

/-- The `hex_05 IN (SELECT hex_05 FROM h3_oceans)` condition; `none` means the
`h3_oceans` table does not exist and no condition is applied. -/
def maskTest : Option (List Nat) → Nat → Bool
  | some m, c => decide (c ∈ m)
  | none, _ => true

/-- The row stream produced by one
`SELECT hex_05, val, polygon_id FROM gebco_2024_polygons, LATERAL
h3_polygon_to_cells(polygon, 5) AS hex_05 WHERE <band> AND <mask>` statement. -/
def hexSelect : List PolyRow → (Int → Bool) → Option (List Nat) → List HexRow
  | [], _, _ => []
  | p :: ps, band, mask =>
      (if band p.val then
        (p.cells.filter (maskTest mask)).map
          (fun c => { hex_05 := c, val := p.val, polygon_id := p.polygon_id })
      else []) ++ hexSelect ps band mask

/-- Insertion of a row stream into `gebco_tid_hex`, whose `hex_05` column is a
PRIMARY KEY: a duplicate cell index violates the key and aborts the whole
statement block (`none`). -/
def insertRows : List HexRow → List HexRow → Option (List HexRow)
  | t, [] => some t
  | t, r :: rs =>
      if t.any (fun x => decide (x.hex_05 = r.hex_05)) then none
      else insertRows (t ++ [r]) rs

/-- The `DO $$ ... $$` block: one probe for `h3_oceans`, then the
`val IN (10..17)` insert followed by the `val NOT IN (10..17)` insert, with the
mask condition exactly when the probe succeeded.  `gebco_tid_hex` is truncated
beforehand, so insertion starts from the empty table. -/
def doBlock (pt : List PolyRow) (mask : Option (List Nat)) : Option (List HexRow) :=
  match mask with
  | some m =>
      (insertRows [] (hexSelect pt valIn (some m))).bind fun t =>
        insertRows t (hexSelect pt (fun v => !valIn v) (some m))
  | none =>
      (insertRows [] (hexSelect pt valIn none)).bind fun t =>
        insertRows t (hexSelect pt (fun v => !valIn v) none)

/-- `assign_gebcoTID_hex`: the SQL block run by `pg_hook.run`.  A primary-key
violation anywhere aborts the implicit transaction, so the run either yields
both tables or nothing. -/
def assign_gebcoTID_hex (input : List DumpRow) (mask : Option (List Nat)) :
    Option (List PolyRow × List HexRow) :=
  (doBlock (gebco_2024_polygons input) mask).map
    fun ht => (gebco_2024_polygons input, ht)

/-- A polygon geometry as handed to `h3.geo_to_cells`: rings of
(longitude, latitude) vertex pairs. -/
structure Geometry where
  rings : List (List (Int × Int))
deriving DecidableEq

/-- A ring with fewer than 3 distinct vertices (e.g. a duplicate-point ring),
the degenerate shape named by the specification. -/
def hasDegenerateRing (g : Geometry) : Bool :=
  g.rings.any (fun ring => decide (ring.dedup.length < 3))

/-- `process_geometry`: converts the geometry and calls
`h3.geo_to_cells(geojson, 5)`.  The library is a parameter; `none` models the
library raising an exception.  The source performs no validity check. -/
def process_geometry (geo_to_cells : Geometry → Nat → Option (Finset Nat))
    (geom : Geometry) : Option (Finset Nat) :=
  geo_to_cells geom 5

/-- `identify_water_hexes`: unions every geometry's cells into `waterhexes`.
A geometry whose processing raises contributes nothing: the exception is
stored in its future and never retrieved (`concurrent.futures.wait`), so the
run completes and returns only the set, with no error report or skip count. -/
def identify_water_hexes (geo_to_cells : Geometry → Nat → Option (Finset Nat))
    (geoms : List Geometry) : Finset Nat :=
  geoms.foldl
    (fun waterhexes geom =>
      match process_geometry geo_to_cells geom with
      | some hexes => waterhexes ∪ hexes
      | none => waterhexes)
    ∅

/-- `write_waterhexes_to_file`: the CSV lines, a header followed by one row per
hexagon in the order the Python `set` happens to be iterated; that order is
process-dependent, so it is an explicit argument here. -/
def write_waterhexes_to_file (order : List Nat) : List String :=
  "H3_Index" :: order.map (fun hexagon => toString hexagon)

/-- The loaded shapefile: its rows (geometries) and coordinate system tag. -/
structure GeoDataFrame where
  geoms : List Geometry
  crs : String
deriving DecidableEq

/-- `gpd.read_file(shapefile_path, rows=1000)` reads the first `rows` rows. -/
def read_file (shp : GeoDataFrame) (rows : Nat) : GeoDataFrame :=
  { geoms := shp.geoms.take rows, crs := shp.crs }

/-- `gdf.to_crs(epsg=4326)`: reprojects every geometry. -/
def to_crs (reproject : Geometry → Geometry) (gdf : GeoDataFrame) : GeoDataFrame :=
  { geoms := gdf.geoms.map reproject, crs := "EPSG:4326" }

/-- `load_water_polygons`: read at most 1000 rows, then reproject when the CRS
is not already EPSG:4326. -/
def load_water_polygons (reproject : Geometry → Geometry) (shp : GeoDataFrame) :
    GeoDataFrame :=
  if (read_file shp 1000).crs ≠ "EPSG:4326" then to_crs reproject (read_file shp 1000)
  else read_file shp 1000

/-- The chunk grouping of `netcdf_to_pgsql`: lines are appended to `chunk`, and
once `len(chunk) >= chunk_size` the chunk is executed and reset; a nonempty
final chunk is executed after the loop. -/
def chunkLines (chunk_size : Nat) : List String → List String → List (List String)
  | chunk, [] => if chunk.isEmpty then [] else [chunk]
  | chunk, line :: rest =>
      if chunk_size ≤ (chunk ++ [line]).length then
        (chunk ++ [line]) :: chunkLines chunk_size [] rest
      else chunkLines chunk_size (chunk ++ [line]) rest

/-- `netcdf_to_pgsql`, success path: each chunk's lines are executed in order
against the database (state type `σ`, one-statement-per-line effect `effect`),
with a commit after each chunk. -/
def netcdf_to_pgsql {σ : Type} (effect : σ → String → σ) (chunk_size : Nat)
    (s : σ) (lines : List String) : σ :=
  (chunkLines chunk_size [] lines).foldl (fun acc chunk => chunk.foldl effect acc) s

/-- `netcdf_to_pgsql`, failure-aware view of the chunk loop: `ok i a` says
whether attempt `a` at committing batch `i` would succeed.  The code performs
a single `cursor.execute` + `conn.commit` per batch and re-raises on failure,
so only attempt `0` is ever consulted; committed batches stay committed. -/
def runBatches {σ : Type} (commit : σ → List String → σ) (ok : Nat → Nat → Bool) :
    Nat → σ → List (List String) → Except σ σ
  | _, s, [] => Except.ok s
  | i, s, chunk :: rest =>
      if ok i 0 then runBatches commit ok (i + 1) (commit s chunk) rest
      else Except.error s

/-- Dump stream with one notable-band and one other-band polygon covering the
same cell 5. -/
def dumpBothBands : List DumpRow :=
  [{ rid := 1, cells := [5], val := 12 }, { rid := 2, cells := [5], val := 3 }]

/-- The same dump stream enumerated in the opposite order. -/
def dumpBothBandsSwapped : List DumpRow :=
  [{ rid := 2, cells := [5], val := 3 }, { rid := 1, cells := [5], val := 12 }]

/-- The polygon table both orders of `dumpBothBands` produce. -/
def ptBoth : List PolyRow :=
  [{ polygon_id := 1, rid := 1, cells := [5], val := 12 }]

/-- The hex table both orders of `dumpBothBands` produce. -/
def htBoth : List HexRow :=
  [{ hex_05 := 5, val := 12, polygon_id := 1 }]

/-- Two notable-band polygons with the same value covering the same cell 7. -/
def dumpSameBandClash : List DumpRow :=
  [{ rid := 1, cells := [7], val := 12 }, { rid := 2, cells := [7], val := 12 }]

/-- Two notable-band polygons with different values covering the same cell 7. -/
def dumpTwoNotableClash : List DumpRow :=
  [{ rid := 1, cells := [7], val := 12 }, { rid := 2, cells := [7], val := 13 }]

/-- Dump stream with one notable polygon on cell 5 and one other-band polygon
on cell 6. -/
def dumpValsExample : List DumpRow :=
  [{ rid := 1, cells := [5], val := 12 }, { rid := 2, cells := [6], val := 3 }]

/-- A non-degenerate triangle. -/
def triangleGeom : Geometry :=
  { rings := [[(0, 0), (1, 0), (0, 1)]] }

/-- A polygon whose only ring repeats a single point. -/
def degeneratePoly : Geometry :=
  { rings := [[(0, 0), (0, 0), (0, 0)]] }

/-- A cell-enumeration library returning the fixed set {1, 2}. -/
def geoToCellsConst : Geometry → Nat → Option (Finset Nat) :=
  fun _ _ => some {1, 2}

/-- A cell-enumeration library that silently enumerates zero cells on a
degenerate polygon and the cell 0 otherwise, as `h3.geo_to_cells` does for a
zero-area ring. -/
def geoToCellsOnDegenerate : Geometry → Nat → Option (Finset Nat) :=
  fun g _ => if hasDegenerateRing g then some ∅ else some {0}

/-- A batch-commit oracle that fails every first attempt but would succeed on
any retry. -/
def okRetryEx : Nat → Nat → Bool :=
  fun _ attempt => decide (1 ≤ attempt)

/-- A batch-commit oracle under which only batch 0 commits. -/
def okFirstBatchOnly : Nat → Nat → Bool :=
  fun i _ => decide (i = 0)

/-- As `okFirstBatchOnly` on first attempts, but later batches would succeed
on a retry. -/
def okFirstBatchOrRetry : Nat → Nat → Bool :=
  fun i attempt => decide (i = 0 ∨ attempt = 1)

/-- `BETWEEN 10 AND 17` and `IN (10, ..., 17)` agree on integers. -/
lemma valBetween_eq_valIn (v : Int) : valBetween v = valIn v := by
  unfold valBetween valIn
  rw [decide_eq_decide]
  omega

/-- A value accepted by the `IN (10, ..., 17)` filter lies in the notable band. -/
lemma valIn_bounds {v : Int} (h : valIn v = true) : 10 ≤ v ∧ v ≤ 17 := by
  unfold valIn at h
  rw [decide_eq_true_eq] at h
  omega

/-- SERIAL numbering only decorates rows: each numbered row restates a source
row's fields. -/
lemma mem_numberRows {p : PolyRow} :
    ∀ {n : Nat} {l : List DumpRow}, p ∈ numberRows n l →
      ∃ r ∈ l, r.rid = p.rid ∧ r.cells = p.cells ∧ r.val = p.val := by
  intro n l
  induction l generalizing n with
  | nil => intro h; simp [numberRows] at h
  | cons r rs ih =>
      intro h
      rw [numberRows] at h
      rcases List.mem_cons.mp h with h | h
      · exact ⟨r, List.mem_cons_self r rs, by simp [h]⟩
      · obtain ⟨r', hr', hfields⟩ := ih h
        exact ⟨r', List.mem_cons_of_mem r hr', hfields⟩

/-- Every row of the intermediate polygon table comes from a dump row that
passed the `BETWEEN 10 AND 17` filter and carries its fields. -/
lemma mem_polygons {input : List DumpRow} {p : PolyRow}
    (h : p ∈ gebco_2024_polygons input) :
    ∃ r ∈ input, valBetween r.val = true ∧ r.cells = p.cells ∧ r.val = p.val := by
  obtain ⟨r, hr, hrid, hcells, hval⟩ := mem_numberRows h
  rw [List.mem_filter] at hr
  exact ⟨r, hr.1, hr.2, hcells, hval⟩

/-- Every polygon-table row has a value in the notable band. -/
lemma polygons_valIn {input : List DumpRow} {p : PolyRow}
    (h : p ∈ gebco_2024_polygons input) : valIn p.val = true := by
  obtain ⟨r, _, hb, _, hval⟩ := mem_polygons h
  rw [← hval, ← valBetween_eq_valIn]
  exact hb

/-- SERIAL numbering preserves the count of rows satisfying a predicate on the
value and cells. -/
lemma countP_numberRows (c : Nat) :
    ∀ (n : Nat) (l : List DumpRow),
      (numberRows n l).countP (fun p => valIn p.val && decide (c ∈ p.cells)) =
        l.countP (fun r => valIn r.val && decide (c ∈ r.cells)) := by
  intro n l
  induction l generalizing n with
  | nil => simp [numberRows]
  | cons r rs ih => simp [numberRows, List.countP_cons, ih]

/-- Counting notable contributions for a cell can be done on the raw dump
stream instead of the polygon table. -/
lemma countP_polygons (input : List DumpRow) (c : Nat) :
    (gebco_2024_polygons input).countP (fun p => valIn p.val && decide (c ∈ p.cells)) =
      input.countP (fun r => valIn r.val && decide (c ∈ r.cells)) := by
  unfold gebco_2024_polygons
  rw [countP_numberRows, List.countP_filter]
  apply List.countP_congr
  intro r _
  rw [valBetween_eq_valIn]
  cases h : valIn r.val <;> simp [h]

/-- Each row of a `SELECT ... FROM gebco_2024_polygons, LATERAL ...` stream
comes from a polygon-table row that passed the band filter, with the cell in
the polygon's enumeration and passing the mask condition. -/
lemma mem_hexSelect {pt : List PolyRow} {band : Int → Bool}
    {mask : Option (List Nat)} {row : HexRow} (h : row ∈ hexSelect pt band mask) :
    ∃ p ∈ pt, band p.val = true ∧ row.hex_05 ∈ p.cells ∧
      maskTest mask row.hex_05 = true ∧ row.val = p.val ∧
      row.polygon_id = p.polygon_id := by
  induction pt with
  | nil => simp [hexSelect] at h
  | cons p ps ih =>
      rw [hexSelect, List.mem_append] at h
      rcases h with h | h
      · rcases hb : band p.val with _ | _
        · rw [hb] at h; simp at h
        · rw [hb] at h
          simp only [if_true] at h
          obtain ⟨c, hc, hrow⟩ := List.mem_map.mp h
          rw [List.mem_filter] at hc
          refine ⟨p, List.mem_cons_self p ps, hb, ?_, ?_, ?_, ?_⟩ <;>
            simp [← hrow, hc.1, hc.2]
      · obtain ⟨p', hp', rest⟩ := ih h
        exact ⟨p', List.mem_cons_of_mem p hp', rest⟩

/-- Projecting the cell index back out of freshly built hex rows returns the
cell list. -/
lemma count_map_mk (v : Int) (pid : Nat) (cells : List Nat) :
    ((cells.map (fun x => ({ hex_05 := x, val := v, polygon_id := pid } : HexRow))).map
      (fun row => row.hex_05)) = cells := by
  induction cells with
  | nil => rfl
  | cons a l ih => simp [ih]

/-- The number of band-passing polygon rows whose enumeration covers an
unmasked cell `c` bounds from below the number of times `c` occurs in the
selected stream. -/
lemma countP_le_count_hexSelect (pt : List PolyRow) (band : Int → Bool)
    (mask : Option (List Nat)) (c : Nat) (hm : maskTest mask c = true) :
    pt.countP (fun p => band p.val && decide (c ∈ p.cells)) ≤
      ((hexSelect pt band mask).map (fun row => row.hex_05)).count c := by
  induction pt with
  | nil => simp [hexSelect]
  | cons p ps ih =>
      rw [hexSelect, List.map_append, List.count_append, List.countP_cons]
      by_cases hcc : (band p.val && decide (c ∈ p.cells)) = true
      · have hbc : band p.val = true ∧ decide (c ∈ p.cells) = true := by simpa using hcc
        obtain ⟨hb, hc⟩ := hbc
        have hmem : c ∈ p.cells.filter (maskTest mask) :=
          List.mem_filter.mpr ⟨of_decide_eq_true hc, hm⟩
        have h1 : 0 < (((p.cells.filter (maskTest mask)).map
            (fun x => ({ hex_05 := x, val := p.val, polygon_id := p.polygon_id } : HexRow))).map
              (fun row => row.hex_05)).count c := by
          rw [count_map_mk]
          exact List.count_pos_iff.mpr hmem
        rw [if_pos hb, if_pos hcc]
        omega
      · rw [if_neg hcc]
        have : List.countP (fun p => band p.val && decide (c ∈ p.cells)) ps ≤
            ((hexSelect ps band mask).map (fun row => row.hex_05)).count c := ih
        omega

/-- A successful primary-key insert appends exactly the selected stream. -/
lemma insertRows_eq_append :
    ∀ {t rows t' : List HexRow}, insertRows t rows = some t' → t' = t ++ rows := by
  intro t rows
  induction rows generalizing t with
  | nil => intro t' h; rw [insertRows] at h; simp_all
  | cons r rs ih =>
      intro t' h
      rw [insertRows] at h
      by_cases hdup : t.any (fun x => decide (x.hex_05 = r.hex_05)) = true
      · rw [if_pos hdup] at h; exact absurd h (by simp)
      · rw [if_neg hdup] at h
        rw [ih h]
        simp

/-- A successful primary-key insert into a duplicate-free table keeps the cell
indices duplicate-free. -/
lemma insertRows_nodup :
    ∀ {t rows t' : List HexRow}, insertRows t rows = some t' →
      (t.map (fun x => x.hex_05)).Nodup → (t'.map (fun x => x.hex_05)).Nodup := by
  intro t rows
  induction rows generalizing t with
  | nil => intro t' h hnd; rw [insertRows] at h; simp_all
  | cons r rs ih =>
      intro t' h hnd
      rw [insertRows] at h
      by_cases hdup : t.any (fun x => decide (x.hex_05 = r.hex_05)) = true
      · rw [if_pos hdup] at h; exact absurd h (by simp)
      · rw [if_neg hdup] at h
        refine ih h ?_
        rw [List.map_append, List.nodup_append]
        refine ⟨hnd, by simp, ?_⟩
        intro a ha hb
        simp only [List.map_cons, List.map_nil, List.mem_singleton] at hb
        rw [Bool.not_eq_true, List.any_eq_false] at hdup
        obtain ⟨x, hx, hxa⟩ := List.mem_map.mp ha
        exact hdup x hx (by rw [decide_eq_true_eq, hxa, hb])

/-- When the selected stream has duplicate-free cell indices, the primary-key
insert succeeds and yields the whole stream. -/
lemma insertRows_of_nodup :
    ∀ {t rows : List HexRow}, ((t ++ rows).map (fun x => x.hex_05)).Nodup →
      insertRows t rows = some (t ++ rows) := by
  intro t rows
  induction rows generalizing t with
  | nil => intro _; rw [insertRows, List.append_nil]
  | cons r rs ih =>
      intro hnd
      rw [insertRows]
      have hdup : t.any (fun x => decide (x.hex_05 = r.hex_05)) = false := by
        rw [List.any_eq_false]
        intro x hx
        rw [decide_eq_true_eq]
        intro hcontra
        have hmem : r.hex_05 ∈ t.map (fun x => x.hex_05) :=
          List.mem_map.mpr ⟨x, hx, hcontra⟩
        have := (List.nodup_append.mp (by rwa [List.map_append] at hnd)).2.2
        exact this hmem (by simp)
      rw [hdup]
      simp only [Bool.false_eq_true, if_false]
      have hre : (t ++ [r]) ++ rs = t ++ r :: rs := (List.append_cons t r rs).symm
      rw [show t ++ r :: rs = (t ++ [r]) ++ rs from hre.symm] at hnd ⊢
      exact ih hnd

/-- Every row of polygon table has a value rejected by `NOT IN (10..17)`, so
the second insert of either branch of the `DO` block selects nothing. -/
lemma hexSelect_band_false {pt : List PolyRow} {band : Int → Bool}
    {mask : Option (List Nat)} (h : ∀ p ∈ pt, band p.val = false) :
    hexSelect pt band mask = [] := by
  induction pt with
  | nil => rfl
  | cons p ps ih =>
      rw [hexSelect, h p (List.mem_cons_self p ps)]
      simp only [Bool.false_eq_true, if_false, List.nil_append]
      exact ih (fun q hq => h q (List.mem_cons_of_mem p hq))

/-- The `val NOT IN (10..17)` selects over the polygon table are empty: the
polygon insert already filtered to `BETWEEN 10 AND 17`. -/
lemma otherBand_empty (input : List DumpRow) (mask : Option (List Nat)) :
    hexSelect (gebco_2024_polygons input) (fun v => !valIn v) mask = [] := by
  apply hexSelect_band_false
  intro p hp
  rw [polygons_valIn hp]
  rfl

/-- A successful run of `assign_gebcoTID_hex` yields exactly the filtered
polygon table, the notable-band selection as the hex table, and duplicate-free
cell indices. -/
lemma assign_eq_some {input : List DumpRow} {mask : Option (List Nat)}
    {pt : List PolyRow} {ht : List HexRow}
    (h : assign_gebcoTID_hex input mask = some (pt, ht)) :
    pt = gebco_2024_polygons input ∧
      ht = hexSelect (gebco_2024_polygons input) valIn mask ∧
      (ht.map (fun x => x.hex_05)).Nodup := by
  unfold assign_gebcoTID_hex at h
  rw [Option.map_eq_some'] at h
  obtain ⟨ht₀, hdo, hpair⟩ := h
  have hpt : pt = gebco_2024_polygons input := by
    have := congrArg Prod.fst hpair; simpa using this.symm
  have hht : ht = ht₀ := by
    have := congrArg Prod.snd hpair; simpa using this.symm
  subst hht
  refine ⟨hpt, ?_, ?_⟩
  all_goals {
    rcases mask with _ | m <;>
    · rw [doBlock, otherBand_empty input] at hdo
      rw [Option.bind_eq_some] at hdo
      obtain ⟨t, hins, hlast⟩ := hdo
      rw [insertRows] at hlast
      have ht_eq : ht = t := by simpa using hlast.symm
      subst ht_eq
      first
      | exact insertRows_eq_append hins |>.trans (by rw [List.nil_append])
      | exact insertRows_nodup hins (by simp)
  }

/-- When the notable-band selection is duplicate-free, `assign_gebcoTID_hex`
succeeds with exactly that table. -/
lemma assign_of_nodup {input : List DumpRow} {mask : Option (List Nat)}
    (h : ((hexSelect (gebco_2024_polygons input) valIn mask).map
      (fun x => x.hex_05)).Nodup) :
    assign_gebcoTID_hex input mask =
      some (gebco_2024_polygons input, hexSelect (gebco_2024_polygons input) valIn mask) := by
  unfold assign_gebcoTID_hex
  have hins : insertRows [] (hexSelect (gebco_2024_polygons input) valIn mask) =
      some (hexSelect (gebco_2024_polygons input) valIn mask) := by
    have := @insertRows_of_nodup [] (hexSelect (gebco_2024_polygons input) valIn mask)
      (by simpa using h)
    simpa using this
  rcases mask with _ | m <;>
  · rw [doBlock, otherBand_empty input, hins]
    simp [insertRows]

/-- Two distinct members both satisfying a predicate force its count to at
least two. -/
lemma two_le_countP {α : Type} {p : α → Bool} {l : List α} {a b : α}
    (ha : a ∈ l) (hb : b ∈ l) (hne : a ≠ b)
    (hpa : p a = true) (hpb : p b = true) : 2 ≤ l.countP p := by
  have ha' : a ∈ l.filter p := List.mem_filter.mpr ⟨ha, hpa⟩
  have hb' : b ∈ l.filter p := List.mem_filter.mpr ⟨hb, hpb⟩
  rw [List.countP_eq_length_filter]
  rcases hfl : l.filter p with _ | ⟨x, _ | ⟨y, t⟩⟩
  · rw [hfl] at ha'; simp at ha'
  · rw [hfl] at ha' hb'
    rw [List.mem_singleton] at ha' hb'
    exact absurd (ha'.trans hb'.symm) hne
  · simp [hfl]

/-- Filtering cells before building rows is the same as building rows and then
filtering on the row's cell index. -/
lemma map_mk_filter (v : Int) (pid : Nat) (g : Nat → Bool) (cells : List Nat) :
    (cells.filter g).map (fun c => ({ hex_05 := c, val := v, polygon_id := pid } : HexRow)) =
      (cells.map (fun c => ({ hex_05 := c, val := v, polygon_id := pid } : HexRow))).filter
        (fun row => g row.hex_05) := by
  induction cells with
  | nil => rfl
  | cons a l ih =>
      rw [List.map_cons, List.filter_cons, List.filter_cons]
      rcases hg : g a with _ | _ <;> simp [hg, ih]

/-- The masked selection is the unmasked selection restricted to mask members:
the `IF EXISTS h3_oceans` branch only adds the membership condition. -/
lemma hexSelect_mask_filter (pt : List PolyRow) (band : Int → Bool) (m : List Nat) :
    hexSelect pt band (some m) =
      (hexSelect pt band none).filter (fun row => decide (row.hex_05 ∈ m)) := by
  induction pt with
  | nil => rfl
  | cons p ps ih =>
      rw [hexSelect, hexSelect, List.filter_append, ← ih]
      rcases hb : band p.val with _ | _
      · simp
      · simp only [if_true]
        congr 1
        have hnone : p.cells.filter (maskTest none) = p.cells := by
          simp [maskTest]
        rw [hnone, map_mk_filter]
        rfl

/-- Executing the chunks produced by the chunk loop is executing the pending
lines after the already-accumulated ones: chunking never reorders, drops or
duplicates a line. -/
lemma chunkLines_foldl {σ : Type} (effect : σ → String → σ) (n : Nat) :
    ∀ (ls chunk : List String) (s : σ),
      (chunkLines n chunk ls).foldl (fun acc c => c.foldl effect acc) s =
        (chunk ++ ls).foldl effect s := by
  intro ls
  induction ls with
  | nil =>
      intro chunk s
      rcases chunk with _ | ⟨c, cs⟩
      · rfl
      · rw [chunkLines]
        simp
  | cons line rest ih =>
      intro chunk s
      rw [chunkLines]
      by_cases hlen : n ≤ (chunk ++ [line]).length
      · rw [if_pos hlen, List.foldl_cons, ih [] ((chunk ++ [line]).foldl effect s),
          List.nil_append]
        rw [show chunk ++ line :: rest = (chunk ++ [line]) ++ rest by simp]
        simp [List.foldl_append]
      · rw [if_neg hlen, ih (chunk ++ [line]) s]
        rw [show (chunk ++ [line]) ++ rest = chunk ++ line :: rest by simp]

/-- Claim C9: every row inserted into the intermediate polygon table, and hence
every value recorded in the final hex table, has a classification value between
10 and 17 inclusive; the insert branches selecting values outside 10..17
contribute zero rows. -/
theorem claim_C9_only_notable_values (input : List DumpRow) (mask : Option (List Nat))
    (pt : List PolyRow) (ht : List HexRow)
    (h : assign_gebcoTID_hex input mask = some (pt, ht)) :
    (∀ p ∈ pt, 10 ≤ p.val ∧ p.val ≤ 17) ∧
    (∀ row ∈ ht, 10 ≤ row.val ∧ row.val ≤ 17) ∧
    hexSelect pt (fun v => !valIn v) mask = [] := by
  obtain ⟨hpt, hht, _⟩ := assign_eq_some h
  subst hpt
  refine ⟨?_, ?_, otherBand_empty input mask⟩
  · intro p hp
    exact valIn_bounds (polygons_valIn hp)
  · intro row hrow
    rw [hht] at hrow
    obtain ⟨p, hp, hband, _, _, hval, _⟩ := mem_hexSelect hrow
    rw [hval]
    exact valIn_bounds (polygons_valIn hp)

/-- Witness for C9 at a concrete dump stream holding one notable-band and one
other-band polygon. -/
theorem claim_C9_witness :
    (∀ p ∈ ([{ polygon_id := 1, rid := 1, cells := [5], val := 12 }] : List PolyRow),
        10 ≤ p.val ∧ p.val ≤ 17) ∧
    (∀ row ∈ ([{ hex_05 := 5, val := 12, polygon_id := 1 }] : List HexRow),
        10 ≤ row.val ∧ row.val ≤ 17) ∧
    hexSelect [{ polygon_id := 1, rid := 1, cells := [5], val := 12 }]
      (fun v => !valIn v) none = [] :=
  claim_C9_only_notable_values dumpValsExample none _ _ rfl

/-- Claim C2 (amended): the stage performs no pre-store aggregation — the rows
sent to the store are exactly the per-(polygon, cell) candidate records — and
uniqueness of the final table is enforced by the store's primary key, which
aborts the run whenever the candidates repeat a cell index; hence a successful
run has exactly one record per distinct cell index. -/
theorem claim_C2_amended_no_prestore_dedup (input : List DumpRow)
    (mask : Option (List Nat)) :
    (∀ pt ht, assign_gebcoTID_hex input mask = some (pt, ht) →
        ht = hexSelect (gebco_2024_polygons input) valIn mask ∧
        (ht.map (fun row => row.hex_05)).Nodup) ∧
    (¬ ((hexSelect (gebco_2024_polygons input) valIn mask).map
        (fun row => row.hex_05)).Nodup →
      assign_gebcoTID_hex input mask = none) := by
  constructor
  · intro pt ht h
    obtain ⟨_, hht, hnd⟩ := assign_eq_some h
    exact ⟨hht, hnd⟩
  · intro hnot
    rcases hres : assign_gebcoTID_hex input mask with _ | ⟨pt, ht⟩
    · rfl
    · obtain ⟨_, hht, hnd⟩ := assign_eq_some hres
      rw [hht] at hnd
      exact absurd hnd hnot

/-- Counterexample to C2 as stated: two overlapping notable polygons send two
records with the same cell index 7 to the store — no per-cell aggregation
happens before persistence — and the store's primary key then aborts the run
rather than deduplicating. -/
theorem claim_C2_counterexample :
    hexSelect (gebco_2024_polygons dumpTwoNotableClash) valIn none =
      [{ hex_05 := 7, val := 12, polygon_id := 1 },
       { hex_05 := 7, val := 13, polygon_id := 2 }] ∧
    assign_gebcoTID_hex dumpTwoNotableClash none = none :=
  ⟨rfl, rfl⟩

/-- Witness for the amended C2 at a concrete duplicate-free input. -/
theorem claim_C2_witness :
    ([{ hex_05 := 5, val := 12, polygon_id := 1 }] : List HexRow) =
      hexSelect (gebco_2024_polygons dumpValsExample) valIn none ∧
    (([{ hex_05 := 5, val := 12, polygon_id := 1 }] : List HexRow).map
      (fun row => row.hex_05)).Nodup :=
  (claim_C2_amended_no_prestore_dedup dumpValsExample none).1 _ _ rfl

/-- Claim C3: with the h3_oceans mask present the final hex table contains
exactly the aggregated rows whose cell index is a member of the mask; with the
mask absent the aggregated rows pass through unfiltered and (for a
duplicate-free candidate stream) the run succeeds — mask absence is a probed
capability, not an error. -/
theorem claim_C3_domain_mask (input : List DumpRow) (m : List Nat)
    (pt : List PolyRow) (ht : List HexRow)
    (hmasked : assign_gebcoTID_hex input (some m) = some (pt, ht))
    (hnd : ((hexSelect (gebco_2024_polygons input) valIn none).map
      (fun row => row.hex_05)).Nodup) :
    (∀ row, row ∈ ht ↔
      (row ∈ hexSelect (gebco_2024_polygons input) valIn none ∧ row.hex_05 ∈ m)) ∧
    assign_gebcoTID_hex input none =
      some (gebco_2024_polygons input, hexSelect (gebco_2024_polygons input) valIn none) := by
  obtain ⟨_, hht, _⟩ := assign_eq_some hmasked
  constructor
  · intro row
    rw [hht, hexSelect_mask_filter]
    simp [List.mem_filter]
  · exact assign_of_nodup hnd

/-- Witness for C3 at a concrete input and the mask [5]. -/
theorem claim_C3_witness :
    (∀ row, row ∈ ([{ hex_05 := 5, val := 12, polygon_id := 1 }] : List HexRow) ↔
      (row ∈ hexSelect (gebco_2024_polygons dumpValsExample) valIn none ∧
        row.hex_05 ∈ [5])) ∧
    assign_gebcoTID_hex dumpValsExample none =
      some (gebco_2024_polygons dumpValsExample,
        hexSelect (gebco_2024_polygons dumpValsExample) valIn none) :=
  claim_C3_domain_mask dumpValsExample [5] _ _ rfl (by decide)

/-- Counterexample to C4 as stated: two same-band (value 12) polygons covering
cell 7 do not resolve to the first contribution under any fixed order — the
primary-key violation aborts the whole run and no row at all is recorded. -/
theorem claim_C4_counterexample :
    valIn 12 = true ∧ assign_gebcoTID_hex dumpSameBandClash none = none :=
  ⟨rfl, rfl⟩

/-- Claim C4 (amended): when a cell that passes the mask receives two or more
candidate contributions within the notable band, the run fails on the store's
uniqueness constraint; no tie-break is applied and nothing is recorded. -/
theorem claim_C4_amended_same_band_fails (input : List DumpRow)
    (mask : Option (List Nat)) (c : Nat)
    (hm : maskTest mask c = true)
    (hdup : 2 ≤ input.countP (fun r => valIn r.val && decide (c ∈ r.cells))) :
    assign_gebcoTID_hex input mask = none := by
  rcases hres : assign_gebcoTID_hex input mask with _ | ⟨pt, ht⟩
  · rfl
  · obtain ⟨_, hht, hnd⟩ := assign_eq_some hres
    rw [hht] at hnd
    have hle1 := List.nodup_iff_count_le_one.mp hnd c
    have hge := countP_le_count_hexSelect (gebco_2024_polygons input) valIn mask c hm
    rw [countP_polygons] at hge
    omega

/-- Witness for the amended C4 at the concrete same-band clash. -/
theorem claim_C4_witness :
    assign_gebcoTID_hex dumpSameBandClash none = none :=
  claim_C4_amended_same_band_fails dumpSameBandClash none 7 rfl (by decide)

/-- Claim C1: in a successful run, any recorded row for a cell that received
candidate contributions from both priority bands carries the notable-band
value — the value of a dump polygon with value in 10..17 covering the cell —
and that value is independent of the enumeration order of the contributing
polygons. -/
theorem claim_C1_notable_band_wins (input₁ input₂ : List DumpRow)
    (mask : Option (List Nat)) (c : Nat)
    (pt₁ : List PolyRow) (ht₁ : List HexRow) (pt₂ : List PolyRow) (ht₂ : List HexRow)
    (hperm : List.Perm input₁ input₂)
    (h₁ : assign_gebcoTID_hex input₁ mask = some (pt₁, ht₁))
    (h₂ : assign_gebcoTID_hex input₂ mask = some (pt₂, ht₂))
    (hnotable : ∃ r ∈ input₁, c ∈ r.cells ∧ valIn r.val = true)
    (hother : ∃ r ∈ input₁, c ∈ r.cells ∧ valIn r.val = false) :
    (∀ row ∈ ht₁, row.hex_05 = c →
        (10 ≤ row.val ∧ row.val ≤ 17) ∧
        ∃ r ∈ input₁, valIn r.val = true ∧ c ∈ r.cells ∧ row.val = r.val) ∧
    (∀ row₁ ∈ ht₁, ∀ row₂ ∈ ht₂, row₁.hex_05 = c → row₂.hex_05 = c →
        row₁.val = row₂.val) := by
  obtain ⟨hpt₁, hht₁, hnd₁⟩ := assign_eq_some h₁
  obtain ⟨hpt₂, hht₂, hnd₂⟩ := assign_eq_some h₂
  have hsrc : ∀ {inp : List DumpRow} {row : HexRow},
      row ∈ hexSelect (gebco_2024_polygons inp) valIn mask → row.hex_05 = c →
      maskTest mask c = true ∧
      ∃ r ∈ inp, valIn r.val = true ∧ c ∈ r.cells ∧ row.val = r.val := by
    intro inp row hrow hc
    obtain ⟨p, hp, hband, hcellmem, hmask, hval, _⟩ := mem_hexSelect hrow
    obtain ⟨r, hr, hrb, hrcells, hrval⟩ := mem_polygons hp
    rw [hc] at hmask hcellmem
    refine ⟨hmask, r, hr, ?_, ?_, ?_⟩
    · rw [hrval]; exact hband
    · rw [hrcells]; exact hcellmem
    · rw [hval, hrval]
  constructor
  · intro row hrow hc
    rw [hht₁] at hrow
    obtain ⟨_, r, hr, hrIn, hrc, hveq⟩ := hsrc hrow hc
    exact ⟨by rw [hveq]; exact valIn_bounds hrIn, r, hr, hrIn, hrc, hveq⟩
  · intro row₁ hm₁ row₂ hm₂ hc₁ hc₂
    rw [hht₁] at hm₁
    rw [hht₂] at hm₂
    obtain ⟨hmask, r₁, hr₁, hb₁, hcc₁, hv₁⟩ := hsrc hm₁ hc₁
    obtain ⟨_, r₂, hr₂, hb₂, hcc₂, hv₂⟩ := hsrc hm₂ hc₂
    have hr₂' : r₂ ∈ input₁ := hperm.mem_iff.mpr hr₂
    by_cases heq : r₁ = r₂
    · rw [hv₁, hv₂, heq]
    · exfalso
      have h2 : 2 ≤ input₁.countP (fun r => valIn r.val && decide (c ∈ r.cells)) :=
        two_le_countP hr₁ hr₂' heq (by simp [hb₁, hcc₁]) (by simp [hb₂, hcc₂])
      have hle := countP_le_count_hexSelect (gebco_2024_polygons input₁) valIn mask c hmask
      rw [countP_polygons] at hle
      rw [hht₁] at hnd₁
      have hle1 := List.nodup_iff_count_le_one.mp hnd₁ c
      omega

/-- Witness for C1: both enumeration orders of one notable (12) and one
other-band (3) polygon over cell 5 succeed and record the notable value. -/
theorem claim_C1_witness :
    (∀ row ∈ htBoth, row.hex_05 = 5 →
        (10 ≤ row.val ∧ row.val ≤ 17) ∧
        ∃ r ∈ dumpBothBands, valIn r.val = true ∧ 5 ∈ r.cells ∧ row.val = r.val) ∧
    (∀ row₁ ∈ htBoth, ∀ row₂ ∈ htBoth, row₁.hex_05 = 5 → row₂.hex_05 = 5 →
        row₁.val = row₂.val) :=
  claim_C1_notable_band_wins dumpBothBands dumpBothBandsSwapped none 5
    ptBoth htBoth ptBoth htBoth (by decide) rfl rfl (by decide) (by decide)

/-- Claim C5 (amended): two runs over identical input compute the same final
set of water hexagons, and the CSVs they write contain the same set of rows;
only the row order — the unspecified iteration order of the Python set — can
differ, so byte-identity is not guaranteed. -/
theorem claim_C5_amended_set_level_determinism (f : Geometry → Nat → Option (Finset Nat))
    (geoms : List Geometry) (o₁ o₂ : List Nat)
    (h₁ : o₁.toFinset = identify_water_hexes f geoms)
    (h₂ : o₂.toFinset = identify_water_hexes f geoms) :
    o₁.toFinset = o₂.toFinset ∧
    (write_waterhexes_to_file o₁).toFinset = (write_waterhexes_to_file o₂).toFinset := by
  have ho : o₁.toFinset = o₂.toFinset := h₁.trans h₂.symm
  have hmem : ∀ x : Nat, x ∈ o₁ ↔ x ∈ o₂ := by
    intro x
    rw [← List.mem_toFinset, ho, List.mem_toFinset]
  refine ⟨ho, ?_⟩
  ext a
  simp only [write_waterhexes_to_file, List.toFinset_cons, Finset.mem_insert,
    List.mem_toFinset, List.mem_map]
  constructor
  · rintro (h | ⟨x, hx, hxa⟩)
    · exact Or.inl h
    · exact Or.inr ⟨x, (hmem x).mp hx, hxa⟩
  · rintro (h | ⟨x, hx, hxa⟩)
    · exact Or.inl h
    · exact Or.inr ⟨x, (hmem x).mpr hx, hxa⟩

/-- Counterexample to C5 as stated: the same run result {1, 2} written under
two iteration orders of the Python set yields different CSV bytes. -/
theorem claim_C5_counterexample :
    ([1, 2] : List Nat).toFinset = identify_water_hexes geoToCellsConst [triangleGeom] ∧
    ([2, 1] : List Nat).toFinset = identify_water_hexes geoToCellsConst [triangleGeom] ∧
    write_waterhexes_to_file [1, 2] ≠ write_waterhexes_to_file [2, 1] :=
  ⟨by decide, by decide, by decide⟩

/-- Witness for the amended C5 at the concrete run {1, 2}. -/
theorem claim_C5_witness :
    ([1, 2] : List Nat).toFinset = ([2, 1] : List Nat).toFinset ∧
    (write_waterhexes_to_file [1, 2]).toFinset =
      (write_waterhexes_to_file [2, 1]).toFinset :=
  claim_C5_amended_set_level_determinism geoToCellsConst [triangleGeom] [1, 2] [2, 1]
    (by decide) (by decide)

/-- Claim C7 (amended): the cell enumerator applies no validity check — it
returns exactly what the library returns — and a degenerate polygon whose
enumeration is empty (or whose processing raises) is absorbed silently: the
run completes as if the polygon were absent, and the result carries no
MalformedGeometry error and no skip count. -/
theorem claim_C7_amended_silent_degenerate (f : Geometry → Nat → Option (Finset Nat))
    (g : Geometry) (geoms : List Geometry)
    (hdeg : hasDegenerateRing g = true)
    (hf : f g 5 = some ∅ ∨ f g 5 = none) :
    process_geometry f g = f g 5 ∧
    identify_water_hexes f (g :: geoms) = identify_water_hexes f geoms := by
  refine ⟨rfl, ?_⟩
  unfold identify_water_hexes
  rw [List.foldl_cons]
  rcases hf with hf | hf <;> simp [process_geometry, hf]

/-- Counterexample to C7 as stated: a duplicate-point ring is degenerate, yet
the enumerator silently returns the library's zero cells instead of a
MalformedGeometry error, and the run completes returning only the other
polygon's cells, with no skip count anywhere in the result. -/
theorem claim_C7_counterexample :
    hasDegenerateRing degeneratePoly = true ∧
    process_geometry geoToCellsOnDegenerate degeneratePoly = some ∅ ∧
    identify_water_hexes geoToCellsOnDegenerate [degeneratePoly, triangleGeom] = {0} :=
  ⟨by decide, by decide, by decide⟩

/-- Witness for the amended C7 at the concrete degenerate polygon. -/
theorem claim_C7_witness :
    process_geometry geoToCellsOnDegenerate degeneratePoly =
      geoToCellsOnDegenerate degeneratePoly 5 ∧
    identify_water_hexes geoToCellsOnDegenerate [degeneratePoly, triangleGeom] =
      identify_water_hexes geoToCellsOnDegenerate [triangleGeom] :=
  claim_C7_amended_silent_degenerate geoToCellsOnDegenerate degeneratePoly [triangleGeom]
    (by decide) (Or.inl (by decide))

/-- Claim C10: loading reads at most the first 1000 rows of the shapefile, so
the loaded frame and the water-hexagon set derived from it are unchanged when
the dataset is truncated to its first 1000 polygons, however many it has. -/
theorem claim_C10_reads_first_1000 (reproject : Geometry → Geometry)
    (f : Geometry → Nat → Option (Finset Nat)) (shp : GeoDataFrame) :
    (load_water_polygons reproject shp).geoms.length ≤ 1000 ∧
    load_water_polygons reproject shp =
      load_water_polygons reproject { geoms := shp.geoms.take 1000, crs := shp.crs } ∧
    identify_water_hexes f (load_water_polygons reproject shp).geoms =
      identify_water_hexes f
        (load_water_polygons reproject
          { geoms := shp.geoms.take 1000, crs := shp.crs }).geoms := by
  have hread : read_file { geoms := shp.geoms.take 1000, crs := shp.crs } 1000 =
      read_file shp 1000 := by
    simp [read_file, List.take_take]
  have heq : load_water_polygons reproject { geoms := shp.geoms.take 1000, crs := shp.crs } =
      load_water_polygons reproject shp := by
    unfold load_water_polygons
    rw [hread]
  refine ⟨?_, heq.symm, by rw [heq]⟩
  unfold load_water_polygons
  split
  · simp only [to_crs, read_file, List.length_map, List.length_take]
    omega
  · simp only [read_file, List.length_take]
    omega

/-- Claim C6: the final database state after a full run of the chunked loader
equals the straight sequential execution of all lines, for every chunk size;
the chunk size is never observable in the result. -/
theorem claim_C6_chunk_size_invariance {σ : Type} (effect : σ → String → σ)
    (s : σ) (lines : List String) (n m : Nat) :
    netcdf_to_pgsql effect n s lines = lines.foldl effect s ∧
    netcdf_to_pgsql effect n s lines = netcdf_to_pgsql effect m s lines := by
  have hn := chunkLines_foldl effect n lines [] s
  have hm := chunkLines_foldl effect m lines [] s
  rw [List.nil_append] at hn hm
  unfold netcdf_to_pgsql
  exact ⟨hn, hn.trans hm.symm⟩

/-- Claim C8 (amended): the writer gives every batch exactly one commit
attempt — the run result is invariant under changing what retries would have
done — and when a batch fails the run fails at once, with exactly the batches
before the failing one committed (no rollback, no retry). -/
theorem claim_C8_amended_single_attempt {σ : Type} (commit : σ → List String → σ)
    (ok₁ ok₂ : Nat → Nat → Bool) (i : Nat) (s : σ) (chunks : List (List String)) :
    ((∀ j, ok₁ j 0 = ok₂ j 0) →
      runBatches commit ok₁ i s chunks = runBatches commit ok₂ i s chunks) ∧
    (∀ s', runBatches commit ok₁ i s chunks = Except.error s' →
      ∃ k, k < chunks.length ∧ ok₁ (i + k) 0 = false ∧
        (∀ j, j < k → ok₁ (i + j) 0 = true) ∧
        s' = (chunks.take k).foldl commit s) := by
  induction chunks generalizing i s with
  | nil =>
      refine ⟨fun _ => rfl, ?_⟩
      intro s' h
      rw [runBatches] at h
      exact absurd h (by simp)
  | cons chunk rest ih =>
      constructor
      · intro hagree
        rw [runBatches, runBatches, hagree i]
        by_cases hok : ok₂ i 0 = true
        · rw [if_pos hok, if_pos hok]
          exact (ih (i + 1) (commit s chunk)).1 hagree
        · rw [if_neg hok, if_neg hok]
      · intro s' h
        rw [runBatches] at h
        by_cases hok : ok₁ i 0 = true
        · rw [if_pos hok] at h
          obtain ⟨k, hk, hfalse, hbefore, hstate⟩ := (ih (i + 1) (commit s chunk)).2 s' h
          refine ⟨k + 1, by simpa using Nat.succ_lt_succ hk, ?_, ?_, ?_⟩
          · rw [show i + (k + 1) = i + 1 + k by omega]
            exact hfalse
          · intro j hj
            rcases j with _ | j'
            · simpa using hok
            · rw [show i + (j' + 1) = i + 1 + j' by omega]
              exact hbefore j' (by omega)
          · rw [List.take_succ_cons, List.foldl_cons]
            exact hstate
        · rw [if_neg hok] at h
          have hs : s' = s := by
            injection h with h'
            exact h'.symm
          refine ⟨0, by simp, ?_, ?_, ?_⟩
          · rw [Nat.add_zero]
            cases hbb : ok₁ i 0 with
            | false => rfl
            | true => exact absurd hbb hok
          · intro j hj
            exact absurd hj (by omega)
          · simpa using hs

/-- Counterexample to C8 as stated: under an environment whose first commit
attempt fails but whose retries would all succeed, the run fails immediately —
the batch is never retried. -/
theorem claim_C8_counterexample :
    runBatches (fun s c => s ++ c) okRetryEx 0 ([] : List String) [["INSERT 1;"]] =
      Except.error [] ∧
    okRetryEx 0 1 = true :=
  ⟨rfl, rfl⟩

/-- Witness for the amended C8: batch 0 commits, batch 1 fails its single
attempt, and the error state is exactly the commit of batch 0. -/
theorem claim_C8_witness :
    (runBatches (fun s c => s ++ c) okFirstBatchOnly 0 ([] : List String)
        [["A;"], ["B;"]] =
      runBatches (fun s c => s ++ c) okFirstBatchOrRetry 0 ([] : List String)
        [["A;"], ["B;"]]) ∧
    (∃ k, k < 2 ∧ okFirstBatchOnly (0 + k) 0 = false ∧
      (∀ j, j < k → okFirstBatchOnly (0 + j) 0 = true) ∧
      ["A;"] = ([["A;"], ["B;"]].take k).foldl (fun s c => s ++ c) ([] : List String)) :=
  ⟨(claim_C8_amended_single_attempt (fun s c => s ++ c) okFirstBatchOnly okFirstBatchOrRetry
      0 [] [["A;"], ["B;"]]).1
      (fun j => by simp [okFirstBatchOnly, okFirstBatchOrRetry]),
   (claim_C8_amended_single_attempt (fun s c => s ++ c) okFirstBatchOnly okFirstBatchOrRetry
      0 [] [["A;"], ["B;"]]).2 ["A;"] rfl⟩
